import Mathlib

/-
Shallow embedding of `src/src/videocontext.js` (the VideoContext orchestrator
and its module-level scheduler), used to check the natural-language
specification against the code.

Times are modelled as JavaScript numbers restricted to the non-NaN rationals
plus an explicit NaN constructor (`JSNum`), since `parseFloat` of a
non-numeric string produces NaN and that value flows into the timeline.
Effects on source nodes (seek / play / pause / the per-tick currentTime push)
are made explicit as command lists, one list per registered source node, and
the per-tick render pass is recorded as a list of render events.
-/

namespace VC

/-- A JavaScript number as used by the timeline: either NaN or a rational.
Floating-point rounding is irrelevant at the granularity of the claims
checked here, so finite values are modelled exactly as rationals. -/
inductive JSNum where
  | nan : JSNum
  | val : ℚ → JSNum
deriving DecidableEq, Repr

/-- JavaScript `+` on numbers: NaN propagates. -/
def JSNum.add : JSNum → JSNum → JSNum
  | JSNum.val a, JSNum.val b => JSNum.val (a + b)
  | _, _ => JSNum.nan

/-- JavaScript `>` on numbers: any comparison with NaN is false. -/
def JSNum.gt : JSNum → JSNum → Bool
  | JSNum.val a, JSNum.val b => decide (b < a)
  | _, _ => false

/-- The playback states of `STATE` at `videocontext.js:24`. -/
inductive PlayState where
  | playing
  | paused
  | stalled
  | ended
  | broken
deriving DecidableEq, Repr

/-- A registered source node, as seen by the orchestrator: its `_stopTime`
and the value its `_isReady()` poll reports during the current tick
(`_isReady` is a cheap side-effect-free poll, so it is constant within a
tick). The node's media internals live outside `src/` and are irrelevant
to the orchestrator logic. -/
structure SourceNode where
  stopTime : ℚ
  ready : Bool
deriving DecidableEq, Repr

/-- A command the orchestrator sends to a source node: `_play()`, `_pause()`,
`_seek(t)`, or the per-tick `_update(currentTime)` push. -/
inductive Cmd where
  | play : Cmd
  | pause : Cmd
  | seek : JSNum → Cmd
  | push : JSNum → Cmd
deriving DecidableEq, Repr

/-- One render call of the per-tick render pass: the destination node's
`_render()` or the `_render()` of the processing node at a given index. -/
inductive RenderEvent where
  | destination : RenderEvent
  | processing : Nat → RenderEvent
deriving DecidableEq, Repr

/-- The orchestrator state of a `VideoContext` instance: its registered
source nodes (in registration order), how many processing nodes are
registered, `_currentTime` and `_state`.  Node internals and the GL plumbing
are external collaborators. -/
structure Ctx where
  sourceNodes : List SourceNode
  processingCount : Nat
  currentTime : JSNum
  state : PlayState
deriving DecidableEq, Repr

/-- Embeds `VideoContext._isStalled` (lines 155-163): true iff some
registered source node reports itself not ready. -/
def isStalled (ctx : Ctx) : Bool :=
  ctx.sourceNodes.any (fun s => !s.ready)

/-- Embeds the `duration` getter (lines 111-119): starting from 0, take each
source node's `_stopTime` whenever it exceeds the running maximum. -/
def duration (ctx : Ctx) : ℚ :=
  ctx.sourceNodes.foldl (fun m s => if s.stopTime > m then s.stopTime else m) 0

/-- Step 1 of `_update` (lines 169-175): when the state is not paused,
re-derive it from current readiness (`stalled` if any source is not ready,
else `playing`); a paused state is left alone. -/
def reconciledState (ctx : Ctx) : PlayState :=
  if ctx.state ≠ PlayState.paused then
    (if isStalled ctx then PlayState.stalled else PlayState.playing)
  else ctx.state

/-- Step 2 of `_update`, time part (line 179): `_currentTime += dt` exactly
when the reconciled state is `playing`. -/
def advancedTime (ctx : Ctx) (dt : ℚ) : JSNum :=
  if reconciledState ctx = PlayState.playing then
    (ctx.currentTime).add (JSNum.val dt)
  else ctx.currentTime

/-- Step 2 of `_update`, state part (line 180): from `playing`, flip to
`ended` when the advanced `_currentTime` strictly exceeds `duration`. -/
def steppedState (ctx : Ctx) (dt : ℚ) : PlayState :=
  if reconciledState ctx = PlayState.playing ∧
      (advancedTime ctx dt).gt (JSNum.val (duration ctx)) then
    PlayState.ended
  else reconciledState ctx

/-- The body of the per-source loop of `_update` (lines 184-197): every
source receives the `_update(currentTime)` push; then, under the post-step-2
state, a stalled tick pauses exactly the individually ready sources, a
paused tick pauses every source, and a playing tick plays every source. -/
def sourceCmds (st : PlayState) (t : JSNum) (s : SourceNode) : List Cmd :=
  [Cmd.push t]
    ++ (if st = PlayState.stalled then
          (if s.ready then [Cmd.pause] else []) else [])
    ++ (if st = PlayState.paused then [Cmd.pause] else [])
    ++ (if st = PlayState.playing then [Cmd.play] else [])

/-- The observable outcome of one `VideoContext._update(dt)` tick: the new
orchestrator state, the commands sent to each source node (aligned with
`sourceNodes`), and the render calls made, in order. -/
structure TickResult where
  ctx : Ctx
  cmds : List (List Cmd)
  renders : List RenderEvent
deriving DecidableEq, Repr

/-- Embeds `VideoContext._update` (lines 165-204).  The whole body is
guarded by `state ∈ \x7bplaying, stalled, paused\x7d`; inside the guard the
state is reconciled, time advanced, per-source commands dispatched, and one
render pass performed (`_destinationNode._render()` then each processing
node's `_render()` in creation order).  Outside the guard nothing at all
happens. -/
def update (ctx : Ctx) (dt : ℚ) : TickResult :=
  if ctx.state = PlayState.playing ∨ ctx.state = PlayState.stalled ∨
      ctx.state = PlayState.paused then
    { ctx := { ctx with
        currentTime := advancedTime ctx dt
        state := steppedState ctx dt }
      cmds := ctx.sourceNodes.map (sourceCmds (steppedState ctx dt) (advancedTime ctx dt))
      renders := RenderEvent.destination ::
        (List.range ctx.processingCount).map RenderEvent.processing }
  else
    { ctx := ctx
      cmds := ctx.sourceNodes.map (fun _ => [])
      renders := [] }

/-- Run `n` successive `_update` ticks with the same `dt`. -/
def runTicks (ctx : Ctx) : Nat → ℚ → Ctx
  | 0, _ => ctx
  | n + 1, dt => runTicks ((update ctx dt).ctx) n dt

/-- The argument of the `currentTime` setter: a number or a string. -/
inductive JSValue where
  | num : JSNum → JSValue
  | str : String → JSValue
deriving DecidableEq, Repr

/-- Value of a digit string read left to right in base 10. -/
def digitsVal (cs : List Char) : ℕ :=
  cs.foldl (fun acc c => acc * 10 + (c.toNat - 48)) 0

/-- Models the JavaScript builtin `parseFloat` on the character list of the
argument, for the fragment exercised by `videocontext.js` (optional leading
spaces, optional sign, decimal digits with an optional fractional part; no
exponent or Infinity forms, which never arise in the checked claims).  When
no digits can be read, the result is NaN. -/
def parseFloatChars (cs0 : List Char) : JSNum :=
  let cs1 := cs0.dropWhile (fun c => c = ' ')
  let sign : ℚ := match cs1 with
    | '-' :: _ => -1
    | _ => 1
  let cs2 := match cs1 with
    | '-' :: rest => rest
    | '+' :: rest => rest
    | _ => cs1
  let intDigits := cs2.takeWhile Char.isDigit
  let rest := cs2.dropWhile Char.isDigit
  let fracDigits := match rest with
    | '.' :: r => r.takeWhile Char.isDigit
    | _ => []
  if intDigits.isEmpty ∧ fracDigits.isEmpty then JSNum.nan
  else JSNum.val (sign *
    ((digitsVal intDigits * 10 ^ fracDigits.length + digitsVal fracDigits : ℕ) : ℚ) /
    (10 : ℚ) ^ fracDigits.length)

/-- Models the JavaScript builtin `parseFloat` on a string. -/
def parseFloat (s : String) : JSNum :=
  parseFloatChars s.data

/-- The result of a `currentTime` setter call: the new orchestrator state
and the commands sent to each source node. -/
structure SeekResult where
  ctx : Ctx
  cmds : List (List Cmd)
deriving DecidableEq, Repr

/-- Embeds the `set currentTime` setter (lines 78-89): a string argument is
coerced with `parseFloat`, every source node receives `_seek` with the
coerced value, and `_currentTime` is assigned it.  Nothing is validated and
nothing is thrown. -/
def setCurrentTime (ctx : Ctx) (v : JSValue) : SeekResult :=
  let t := match v with
    | JSValue.num n => n
    | JSValue.str s => parseFloat s
  { ctx := { ctx with currentTime := t }
    cmds := ctx.sourceNodes.map (fun _ => [Cmd.seek t]) }

/-- Embeds `play()` (lines 125-132): `_play()` to every source node, then
`_state = STATE.playing`. -/
def play (ctx : Ctx) : Ctx × List (List Cmd) :=
  ({ ctx with state := PlayState.playing },
    ctx.sourceNodes.map (fun _ => [Cmd.play]))

/-- Embeds `pause()` (lines 134-141): `_pause()` to every source node, then
`_state = STATE.paused`. -/
def pause (ctx : Ctx) : Ctx × List (List Cmd) :=
  ({ ctx with state := PlayState.paused },
    ctx.sourceNodes.map (fun _ => [Cmd.pause]))

/-- Embeds `createVideoSourceNode` (lines 143-147) at the orchestrator
level: the new node is pushed onto the end of `_sourceNodes`.  The node's
construction from media is external. -/
def createVideoSourceNode (ctx : Ctx) (node : SourceNode) : Ctx :=
  { ctx with sourceNodes := ctx.sourceNodes ++ [node] }

end VC

namespace Scheduler

/-- A registered updateable as the module-level scheduler loop sees it
during one frame pass: whether its `_update(dt)` call raises. -/
structure Updateable where
  throws : Bool
deriving DecidableEq, Repr

/-- The outcome of one frame pass of the module-level `update` function:
how many registered updateables had `_update` invoked, and whether
`requestAnimationFrame(update)` ran to schedule the next frame. -/
structure PassResult where
  invoked : Nat
  rescheduled : Bool
deriving DecidableEq, Repr

/-- The `for` loop of `update` (lines 15-17) under JavaScript uncaught
exception semantics: the loop body has no try/catch, so the first updateable
whose `_update` raises terminates the pass abnormally (later updateables are
not invoked).  Returns the number of invoked updateables and whether the
loop completed normally. -/
def runUpdateables : List Updateable → Nat × Bool
  | [] => (0, true)
  | u :: rest =>
    if u.throws then (1, false)
    else
      let r := runUpdateables rest
      (r.1 + 1, r.2)

/-- Embeds one invocation of the module-level `update` function (lines
12-20): every registered updateable is ticked in registration order, and
`requestAnimationFrame(update)` runs only if the loop completed without an
exception escaping (there is no try/catch anywhere in the function). -/
def schedulerUpdate (us : List Updateable) : PassResult :=
  let r := runUpdateables us
  { invoked := r.1, rescheduled := r.2 }

end Scheduler

namespace VC

/-- On a paused context, step 1 leaves the state paused. -/
theorem reconciledState_of_paused (ctx : Ctx) (h : ctx.state = PlayState.paused) :
    reconciledState ctx = PlayState.paused := by
  simp [reconciledState, h]

/-- On a non-paused context, step 1 re-derives the state from readiness. -/
theorem reconciledState_of_live (ctx : Ctx) (h : ctx.state ≠ PlayState.paused) :
    reconciledState ctx =
      (if isStalled ctx then PlayState.stalled else PlayState.playing) := by
  simp [reconciledState, h]

/-- Time only advances when the reconciled state is playing. -/
theorem advancedTime_of_not_playing (ctx : Ctx) (dt : ℚ)
    (h : reconciledState ctx ≠ PlayState.playing) :
    advancedTime ctx dt = ctx.currentTime := by
  simp [advancedTime, h]

/-- Step 2 leaves any non-playing reconciled state alone. -/
theorem steppedState_of_not_playing (ctx : Ctx) (dt : ℚ)
    (h : reconciledState ctx ≠ PlayState.playing) :
    steppedState ctx dt = reconciledState ctx := by
  simp [steppedState, h]

/-- Inside the live guard, the tick's final state is the stepped state. -/
theorem update_ctx_state (ctx : Ctx) (dt : ℚ)
    (h : ctx.state = PlayState.playing ∨ ctx.state = PlayState.stalled ∨
      ctx.state = PlayState.paused) :
    (update ctx dt).ctx.state = steppedState ctx dt := by
  simp [update, h]

/-- Inside the live guard, the tick's final time is the advanced time. -/
theorem update_ctx_time (ctx : Ctx) (dt : ℚ)
    (h : ctx.state = PlayState.playing ∨ ctx.state = PlayState.stalled ∨
      ctx.state = PlayState.paused) :
    (update ctx dt).ctx.currentTime = advancedTime ctx dt := by
  simp [update, h]

/-- Inside the live guard, each source receives the loop-body commands for
the post-step-2 state. -/
theorem update_cmds (ctx : Ctx) (dt : ℚ)
    (h : ctx.state = PlayState.playing ∨ ctx.state = PlayState.stalled ∨
      ctx.state = PlayState.paused) :
    (update ctx dt).cmds =
      ctx.sourceNodes.map (sourceCmds (steppedState ctx dt) (advancedTime ctx dt)) := by
  simp [update, h]

/-- A tick in the ended or broken state does nothing at all. -/
theorem update_of_dead (ctx : Ctx) (dt : ℚ)
    (h : ctx.state = PlayState.ended ∨ ctx.state = PlayState.broken) :
    update ctx dt =
      { ctx := ctx, cmds := ctx.sourceNodes.map (fun _ => []), renders := [] } := by
  rcases h with h | h <;> simp [update, h]

/-- The stall poll is false exactly when every source reports ready. -/
theorem isStalled_eq_false_iff (ctx : Ctx) :
    isStalled ctx = false ↔ ∀ s ∈ ctx.sourceNodes, s.ready = true := by
  simp [isStalled]

/-- The stall poll is true exactly when some source reports not ready. -/
theorem isStalled_eq_true_iff (ctx : Ctx) :
    isStalled ctx = true ↔ ∃ s ∈ ctx.sourceNodes, s.ready = false := by
  simp [isStalled]

/-- Loop-body commands during a paused tick. -/
theorem sourceCmds_paused (t : JSNum) (s : SourceNode) :
    sourceCmds PlayState.paused t s = [Cmd.push t, Cmd.pause] := rfl

/-- Loop-body commands during a playing tick. -/
theorem sourceCmds_playing (t : JSNum) (s : SourceNode) :
    sourceCmds PlayState.playing t s = [Cmd.push t, Cmd.play] := rfl

/-- Loop-body commands during a stalled tick: pause the ready sources only. -/
theorem sourceCmds_stalled (t : JSNum) (s : SourceNode) :
    sourceCmds PlayState.stalled t s =
      if s.ready then [Cmd.push t, Cmd.pause] else [Cmd.push t] := by
  by_cases h : s.ready <;> simp [sourceCmds, h]

/-- Zipping a list with its own map pairs each element with its image. -/
theorem zip_map_self {α β : Type} (l : List α) (g : α → β) :
    l.zip (l.map g) = l.map (fun a => (a, g a)) := by
  induction l with
  | nil => rfl
  | cons x xs ih => simp [ih]

/-- The string "12.5" coerces to the number 12.5. -/
theorem parseFloat_twelve_point_five : parseFloat "12.5" = JSNum.val 12.5 := by
  have h : parseFloat "12.5" =
      JSNum.val ((1 : ℚ) * (((125 : ℕ)) : ℚ) / (10 : ℚ) ^ (1 : ℕ)) := rfl
  rw [h]
  norm_num

end VC
open VC Scheduler

/-- A paused context with two sources, used to exercise claim C7. -/
def c7wctx : Ctx :=
  { sourceNodes := [⟨10, true⟩, ⟨20, false⟩], processingCount := 2,
    currentTime := JSNum.val 3, state := PlayState.paused }

/-- C7: for every dt ≥ 0, a tick taken while paused leaves currentTime
unchanged, leaves the state paused, and sends every registered source node
exactly one pause command during that tick. -/
theorem C7_paused_tick (ctx : Ctx) (dt : ℚ) (hdt : 0 ≤ dt)
    (h : ctx.state = PlayState.paused) :
    (update ctx dt).ctx.currentTime = ctx.currentTime ∧
    (update ctx dt).ctx.state = PlayState.paused ∧
    (update ctx dt).cmds.length = ctx.sourceNodes.length ∧
    ∀ cs ∈ (update ctx dt).cmds, cs.count Cmd.pause = 1 := by
  have hg : ctx.state = PlayState.playing ∨ ctx.state = PlayState.stalled ∨
      ctx.state = PlayState.paused := Or.inr (Or.inr h)
  have hrec := reconciledState_of_paused ctx h
  have hnp : reconciledState ctx ≠ PlayState.playing := by rw [hrec]; simp
  have hadv := advancedTime_of_not_playing ctx dt hnp
  have hstep : steppedState ctx dt = PlayState.paused := by
    rw [steppedState_of_not_playing ctx dt hnp, hrec]
  refine ⟨?_, ?_, ?_, ?_⟩
  · rw [update_ctx_time ctx dt hg, hadv]
  · rw [update_ctx_state ctx dt hg, hstep]
  · rw [update_cmds ctx dt hg]; simp
  · rw [update_cmds ctx dt hg, hstep]
    intro cs hcs
    obtain ⟨s, _, rfl⟩ := List.mem_map.mp hcs
    simp [sourceCmds_paused, List.count_cons]

/-- Witness for C7 at a concrete paused context and dt = 0. -/
theorem C7_witness :
    (update c7wctx 0).ctx.currentTime = c7wctx.currentTime ∧
    (update c7wctx 0).ctx.state = PlayState.paused ∧
    (update c7wctx 0).cmds.length = c7wctx.sourceNodes.length ∧
    List.count Cmd.pause [Cmd.push (JSNum.val 3), Cmd.pause] = 1 :=
  ⟨(C7_paused_tick c7wctx 0 (le_refl 0) rfl).1,
   (C7_paused_tick c7wctx 0 (le_refl 0) rfl).2.1,
   (C7_paused_tick c7wctx 0 (le_refl 0) rfl).2.2.1,
   (C7_paused_tick c7wctx 0 (le_refl 0) rfl).2.2.2
     [Cmd.push (JSNum.val 3), Cmd.pause] (List.mem_cons_self _ _)⟩

/-- C8: setCurrentTime of the numeric string "12.5" behaves identically to
setCurrentTime of the number 12.5: currentTime becomes 12.5 and every
registered source node receives seek(12.5). -/
theorem C8_numeric_string (ctx : Ctx) :
    setCurrentTime ctx (JSValue.str "12.5") =
      setCurrentTime ctx (JSValue.num (JSNum.val 12.5)) ∧
    (setCurrentTime ctx (JSValue.str "12.5")).ctx.currentTime =
      JSNum.val 12.5 ∧
    (setCurrentTime ctx (JSValue.str "12.5")).cmds =
      ctx.sourceNodes.map (fun _ => [Cmd.seek (JSNum.val 12.5)]) := by
  refine ⟨?_, ?_, ?_⟩ <;> simp [setCurrentTime, parseFloat_twelve_point_five]

/-- A small context used to instantiate claim C8 concretely. -/
def c8wctx : Ctx :=
  { sourceNodes := [⟨10, true⟩], processingCount := 0,
    currentTime := JSNum.val 0, state := PlayState.paused }

/-- Witness for C8 at a concrete context. -/
theorem C8_witness :
    setCurrentTime c8wctx (JSValue.str "12.5") =
      setCurrentTime c8wctx (JSValue.num (JSNum.val 12.5)) ∧
    (setCurrentTime c8wctx (JSValue.str "12.5")).ctx.currentTime =
      JSNum.val 12.5 ∧
    (setCurrentTime c8wctx (JSValue.str "12.5")).cmds =
      c8wctx.sourceNodes.map (fun _ => [Cmd.seek (JSNum.val 12.5)]) :=
  C8_numeric_string c8wctx

/-- A paused context with one source at currentTime 5, for claim C3. -/
def c3ctx : Ctx :=
  { sourceNodes := [⟨10, true⟩], processingCount := 0,
    currentTime := JSNum.val 5, state := PlayState.paused }

/-- C3 fails on the code: a non-numeric seek target does not error out and
does not leave the timeline unchanged — the source receives seek(NaN) and
currentTime is overwritten with NaN. -/
theorem C3_counterexample :
    c3ctx.currentTime = JSNum.val 5 ∧
    (setCurrentTime c3ctx (JSValue.str "hello")).ctx.currentTime ≠
      c3ctx.currentTime ∧
    (setCurrentTime c3ctx (JSValue.str "hello")).cmds =
      [[Cmd.seek JSNum.nan]] := by
  refine ⟨rfl, ?_, rfl⟩
  have h : (setCurrentTime c3ctx (JSValue.str "hello")).ctx.currentTime =
      JSNum.nan := rfl
  rw [h]
  simp [c3ctx]

/-- C3 amended: setCurrentTime with a string that fails numeric coercion
raises no error and is not a no-op: it forwards seek(NaN) to every source
node and overwrites currentTime with NaN; only the playback state and the
node collections are untouched. -/
theorem C3_amended_nan_seek (ctx : Ctx) (s : String)
    (h : parseFloat s = JSNum.nan) :
    (setCurrentTime ctx (JSValue.str s)).ctx.currentTime = JSNum.nan ∧
    (setCurrentTime ctx (JSValue.str s)).ctx.state = ctx.state ∧
    (setCurrentTime ctx (JSValue.str s)).ctx.sourceNodes = ctx.sourceNodes ∧
    (setCurrentTime ctx (JSValue.str s)).cmds =
      ctx.sourceNodes.map (fun _ => [Cmd.seek JSNum.nan]) := by
  simp [setCurrentTime, h]

/-- Witness for the amended C3 at a concrete context and string. -/
theorem C3_witness :
    (setCurrentTime c3ctx (JSValue.str "hello")).ctx.currentTime =
      JSNum.nan ∧
    (setCurrentTime c3ctx (JSValue.str "hello")).ctx.state = c3ctx.state ∧
    (setCurrentTime c3ctx (JSValue.str "hello")).ctx.sourceNodes =
      c3ctx.sourceNodes ∧
    (setCurrentTime c3ctx (JSValue.str "hello")).cmds =
      c3ctx.sourceNodes.map (fun _ => [Cmd.seek JSNum.nan]) :=
  C3_amended_nan_seek c3ctx "hello" rfl

/-- C4 fails on the code: the scheduler loop has no try/catch, so a throwing
updateable stops the pass — here the second sibling is never invoked and the
next frame callback is not rescheduled. -/
theorem C4_counterexample :
    (schedulerUpdate [⟨true⟩, ⟨false⟩]).invoked = 1 ∧
    (schedulerUpdate [⟨true⟩, ⟨false⟩]).rescheduled = false := by decide

/-- C4 amended: an exception raised inside one updateable's per-frame tick
aborts the frame pass: only the updateables up to and including the faulty
one are invoked, and the next frame callback is not rescheduled (the loop
dies). -/
theorem C4_amended_loop_dies (pre post : List Updateable) (u : Updateable)
    (hu : u.throws = true) (hpre : ∀ v ∈ pre, v.throws = false) :
    (schedulerUpdate (pre ++ u :: post)).invoked = pre.length + 1 ∧
    (schedulerUpdate (pre ++ u :: post)).rescheduled = false := by
  induction pre with
  | nil => simp [schedulerUpdate, runUpdateables, hu]
  | cons v rest ih =>
    have hv : v.throws = false := hpre v (List.mem_cons_self v rest)
    have ih2 := ih (fun w hw => hpre w (List.mem_cons_of_mem v hw))
    simp only [schedulerUpdate, List.cons_append, List.append_eq,
      runUpdateables, hv, Bool.false_eq_true, if_false,
      List.length_cons] at ih2 ⊢
    exact ⟨by rw [ih2.1], ih2.2⟩

/-- Witness for the amended C4: one healthy updateable before and one after
the faulty one. -/
theorem C4_witness :
    (schedulerUpdate ([⟨false⟩] ++ ⟨true⟩ :: [⟨false⟩])).invoked =
      ([(⟨false⟩ : Updateable)] : List Updateable).length + 1 ∧
    (schedulerUpdate ([⟨false⟩] ++ ⟨true⟩ :: [⟨false⟩])).rescheduled = false :=
  C4_amended_loop_dies [⟨false⟩] [⟨false⟩] ⟨true⟩ rfl (by decide)

/-- An ended context with one source and one processing node, for C5. -/
def c5ctx : Ctx :=
  { sourceNodes := [⟨10, true⟩], processingCount := 1,
    currentTime := JSNum.val 3, state := PlayState.ended }

/-- C5 fails on the code: a tick taken in the ended state performs no render
pass at all — neither the destination node nor the processing node renders. -/
theorem C5_counterexample :
    c5ctx.state = PlayState.ended ∧ (update c5ctx 1).renders = [] :=
  ⟨rfl, rfl⟩

/-- C5 amended: a tick taken while ended or broken skips the whole update
body: no render pass occurs, the context is unchanged, and no source node
receives any command. -/
theorem C5_amended_no_render (ctx : Ctx) (dt : ℚ)
    (h : ctx.state = PlayState.ended ∨ ctx.state = PlayState.broken) :
    (update ctx dt).renders = [] ∧
    (update ctx dt).ctx = ctx ∧
    (update ctx dt).cmds = ctx.sourceNodes.map (fun _ => []) := by
  rw [update_of_dead ctx dt h]
  exact ⟨rfl, rfl, rfl⟩

/-- Witness for the amended C5 at a concrete ended context. -/
theorem C5_witness :
    (update c5ctx 1).renders = [] ∧
    (update c5ctx 1).ctx = c5ctx ∧
    (update c5ctx 1).cmds = c5ctx.sourceNodes.map (fun _ => []) :=
  C5_amended_no_render c5ctx 1 (Or.inl rfl)

/-- An ended context whose only source is ready, for C6. -/
def c6ctx : Ctx :=
  { sourceNodes := [⟨10, true⟩], processingCount := 0,
    currentTime := JSNum.val 3, state := PlayState.ended }

/-- C6 fails on the code: an ended context with every source ready is frozen
— the next tick leaves the state ended instead of re-deriving it. -/
theorem C6_counterexample :
    isStalled c6ctx = false ∧ c6ctx.state = PlayState.ended ∧
    (update c6ctx 1).ctx.state = PlayState.ended :=
  ⟨rfl, rfl, rfl⟩

/-- C6 amended: both ended and broken are sticky across ticks (a tick taken
in either state leaves the context unchanged); a paused tick stays paused;
only from playing or stalled is the state re-derived each tick from the
current readiness of the sources. -/
theorem C6_amended_sticky (ctx : Ctx) (dt : ℚ) :
    ((ctx.state = PlayState.ended ∨ ctx.state = PlayState.broken) →
      (update ctx dt).ctx = ctx) ∧
    ((ctx.state = PlayState.playing ∨ ctx.state = PlayState.stalled) →
      ((update ctx dt).ctx.state = PlayState.stalled ↔ isStalled ctx = true)) ∧
    (ctx.state = PlayState.paused →
      (update ctx dt).ctx.state = PlayState.paused) := by
  refine ⟨fun h => by rw [update_of_dead ctx dt h], fun h => ?_, fun h => ?_⟩
  · have hg : ctx.state = PlayState.playing ∨ ctx.state = PlayState.stalled ∨
        ctx.state = PlayState.paused := by
      rcases h with h | h
      · exact Or.inl h
      · exact Or.inr (Or.inl h)
    have hnp : ctx.state ≠ PlayState.paused := by
      rcases h with h | h <;> simp [h]
    rw [update_ctx_state ctx dt hg]
    by_cases hs : isStalled ctx
    · have hrec : reconciledState ctx = PlayState.stalled := by
        rw [reconciledState_of_live ctx hnp, if_pos hs]
      rw [steppedState_of_not_playing ctx dt (by rw [hrec]; simp), hrec]
      simp [hs]
    · have hrec : reconciledState ctx = PlayState.playing := by
        rw [reconciledState_of_live ctx hnp, if_neg hs]
      simp only [steppedState, hrec, true_and, Bool.not_eq_true] at *
      split <;> simp [hs]
  · have hg : ctx.state = PlayState.playing ∨ ctx.state = PlayState.stalled ∨
        ctx.state = PlayState.paused := Or.inr (Or.inr h)
    have hrec := reconciledState_of_paused ctx h
    have hnp : reconciledState ctx ≠ PlayState.playing := by rw [hrec]; simp
    rw [update_ctx_state ctx dt hg, steppedState_of_not_playing ctx dt hnp,
      hrec]

/-- Witness for the amended C6 at a concrete ended context. -/
theorem C6_witness : (update c6ctx 1).ctx = c6ctx :=
  (C6_amended_sticky c6ctx 1).1 (Or.inl rfl)

/-- A playing context whose only (ready) source is already at its stop time,
for C1. -/
def c1ctx : Ctx :=
  { sourceNodes := [⟨10, true⟩], processingCount := 0,
    currentTime := JSNum.val 10, state := PlayState.playing }

/-- C1 fails on the code as stated: in a playing tick where every source is
ready the tick's resulting state need not be playing — when the advanced
currentTime exceeds the duration the same tick ends the context. -/
theorem C1_counterexample :
    c1ctx.state = PlayState.playing ∧
    (∀ s ∈ c1ctx.sourceNodes, s.ready = true) ∧
    (update c1ctx 1).ctx.state ≠ PlayState.playing := by
  refine ⟨rfl, by decide, ?_⟩
  have h : (update c1ctx 1).ctx.state = PlayState.ended := by
    norm_num [update, c1ctx, steppedState, reconciledState, advancedTime,
      isStalled, duration, JSNum.add, JSNum.gt]
  rw [h]
  simp

/-- C1 amended: for every tick taken in a state other than paused (playing
or stalled): if at least one source reports not ready, the state becomes
stalled that tick and every individually ready source receives a pause
command that same tick; if every source reports ready, the state becomes
playing that tick unless the advanced currentTime strictly exceeds the
duration, in which case it becomes ended that same tick. -/
theorem C1_amended_reconciliation (ctx : Ctx) (dt : ℚ)
    (h : ctx.state = PlayState.playing ∨ ctx.state = PlayState.stalled) :
    ((∃ s ∈ ctx.sourceNodes, s.ready = false) →
      (update ctx dt).ctx.state = PlayState.stalled ∧
      ∀ p ∈ ctx.sourceNodes.zip (update ctx dt).cmds,
        p.1.ready = true → Cmd.pause ∈ p.2) ∧
    ((∀ s ∈ ctx.sourceNodes, s.ready = true) →
      (update ctx dt).ctx.state =
        (if (ctx.currentTime.add (JSNum.val dt)).gt (JSNum.val (duration ctx))
         then PlayState.ended else PlayState.playing)) := by
  have hg : ctx.state = PlayState.playing ∨ ctx.state = PlayState.stalled ∨
      ctx.state = PlayState.paused := by
    rcases h with h | h
    · exact Or.inl h
    · exact Or.inr (Or.inl h)
  have hnp : ctx.state ≠ PlayState.paused := by
    rcases h with h | h <;> simp [h]
  constructor
  · intro hex
    have hs : isStalled ctx = true := (isStalled_eq_true_iff ctx).mpr hex
    have hrec : reconciledState ctx = PlayState.stalled := by
      rw [reconciledState_of_live ctx hnp, if_pos hs]
    have hrnp : reconciledState ctx ≠ PlayState.playing := by rw [hrec]; simp
    have hstep : steppedState ctx dt = PlayState.stalled := by
      rw [steppedState_of_not_playing ctx dt hrnp, hrec]
    refine ⟨by rw [update_ctx_state ctx dt hg, hstep], ?_⟩
    intro p hp
    rw [update_cmds ctx dt hg, hstep, zip_map_self] at hp
    obtain ⟨a, _, rfl⟩ := List.mem_map.mp hp
    intro hready
    replace hready : a.ready = true := hready
    show Cmd.pause ∈ sourceCmds PlayState.stalled (advancedTime ctx dt) a
    rw [sourceCmds_stalled, if_pos hready]
    exact List.mem_cons_of_mem _ (List.mem_cons_self _ _)
  · intro hall
    have hs : isStalled ctx = false := (isStalled_eq_false_iff ctx).mpr hall
    have hrec : reconciledState ctx = PlayState.playing := by
      rw [reconciledState_of_live ctx hnp, if_neg (by simp [hs])]
    have hadv : advancedTime ctx dt = ctx.currentTime.add (JSNum.val dt) := by
      rw [advancedTime, if_pos hrec]
    have hstep : steppedState ctx dt =
        (if (ctx.currentTime.add (JSNum.val dt)).gt (JSNum.val (duration ctx))
         then PlayState.ended else PlayState.playing) := by
      rw [steppedState, hrec, hadv]
      simp
    rw [update_ctx_state ctx dt hg, hstep]

/-- A playing context with one not-ready source, instantiating the stalled
half of the amended C1. -/
def c1wctx : Ctx :=
  { sourceNodes := [⟨10, false⟩], processingCount := 0,
    currentTime := JSNum.val 0, state := PlayState.playing }

/-- Witness for the amended C1: a not-ready source stalls the tick. -/
theorem C1_witness :
    (update c1wctx 1).ctx.state = PlayState.stalled :=
  ((C1_amended_reconciliation c1wctx 1 (Or.inl rfl)).1
    ⟨⟨10, false⟩, List.mem_cons_self _ _, rfl⟩).1

/-- A playing context with one ready and one not-ready source, for C10. -/
def c10wctx : Ctx :=
  { sourceNodes := [⟨10, true⟩, ⟨20, false⟩], processingCount := 0,
    currentTime := JSNum.val 3, state := PlayState.playing }

/-- C10: during a tick whose post-reconciliation state is stalled, every
not-ready source receives only the currentTime push (neither play nor
pause), and every ready source receives the push followed by a pause. -/
theorem C10_stalled_commands (ctx : Ctx) (dt : ℚ)
    (h : (update ctx dt).ctx.state = PlayState.stalled) :
    ∀ p ∈ ctx.sourceNodes.zip (update ctx dt).cmds,
      (p.1.ready = false →
        p.2 = [Cmd.push (update ctx dt).ctx.currentTime]) ∧
      (p.1.ready = true →
        p.2 = [Cmd.push (update ctx dt).ctx.currentTime, Cmd.pause]) := by
  by_cases hg : ctx.state = PlayState.playing ∨ ctx.state = PlayState.stalled ∨
      ctx.state = PlayState.paused
  case neg =>
    exfalso
    have hctx : (update ctx dt).ctx = ctx := by simp [update, hg]
    rw [hctx] at h
    exact hg (Or.inr (Or.inl h))
  case pos =>
    have hstep : steppedState ctx dt = PlayState.stalled := by
      rw [update_ctx_state ctx dt hg] at h
      exact h
    have hrec : reconciledState ctx = PlayState.stalled := by
      by_cases hc : reconciledState ctx = PlayState.playing ∧
          (advancedTime ctx dt).gt (JSNum.val (duration ctx))
      · rw [steppedState, if_pos hc] at hstep
        exact absurd hstep (by simp)
      · rw [steppedState, if_neg hc] at hstep
        exact hstep
    have hrnp : reconciledState ctx ≠ PlayState.playing := by rw [hrec]; simp
    have hadv := advancedTime_of_not_playing ctx dt hrnp
    have htime : (update ctx dt).ctx.currentTime = ctx.currentTime := by
      rw [update_ctx_time ctx dt hg, hadv]
    intro p hp
    rw [update_cmds ctx dt hg, hstep, zip_map_self] at hp
    obtain ⟨a, _, rfl⟩ := List.mem_map.mp hp
    rw [htime]
    constructor
    · intro hready
      replace hready : a.ready = false := hready
      show sourceCmds PlayState.stalled (advancedTime ctx dt) a =
        [Cmd.push ctx.currentTime]
      rw [sourceCmds_stalled, if_neg (by simp [hready]), hadv]
    · intro hready
      replace hready : a.ready = true := hready
      show sourceCmds PlayState.stalled (advancedTime ctx dt) a =
        [Cmd.push ctx.currentTime, Cmd.pause]
      rw [sourceCmds_stalled, if_pos hready, hadv]

/-- Witness for C10: a concrete stalled tick with one ready and one
not-ready source. -/
theorem C10_witness :
    [Cmd.push (JSNum.val 3), Cmd.pause] =
      [Cmd.push (update c10wctx 5).ctx.currentTime, Cmd.pause] :=
  (C10_stalled_commands c10wctx 5 rfl
      (⟨10, true⟩, [Cmd.push (JSNum.val 3), Cmd.pause])
      (List.mem_cons_self _ _)).2 rfl

/-- The loop body of the `duration` getter, named for reasoning. -/
def durStep (m : ℚ) (s : SourceNode) : ℚ :=
  if s.stopTime > m then s.stopTime else m

/-- The `duration` getter is the fold of its loop body over the sources. -/
theorem duration_eq_foldl (ctx : Ctx) :
    duration ctx = ctx.sourceNodes.foldl durStep 0 := rfl

/-- The running maximum never drops below its starting value. -/
theorem le_foldl_durStep (l : List SourceNode) (a : ℚ) :
    a ≤ l.foldl durStep a := by
  induction l generalizing a with
  | nil => simp
  | cons x xs ih =>
    simp only [List.foldl_cons]
    refine le_trans ?_ (ih (durStep a x))
    unfold durStep
    split
    · exact le_of_lt (by assumption)
    · exact le_refl a

/-- Every listed stop time is bounded by the fold of the loop body. -/
theorem mem_le_foldl_durStep (l : List SourceNode) (a : ℚ) :
    ∀ s ∈ l, s.stopTime ≤ l.foldl durStep a := by
  induction l generalizing a with
  | nil => simp
  | cons x xs ih =>
    intro s hs
    simp only [List.foldl_cons]
    rcases List.mem_cons.mp hs with rfl | hs2
    · refine le_trans ?_ (le_foldl_durStep xs (durStep a s))
      unfold durStep
      split
      · exact le_refl _
      · exact le_of_not_lt (by assumption)
    · exact ih (durStep a x) s hs2

/-- The fold of the loop body is its starting value or some stop time. -/
theorem foldl_durStep_eq_or (l : List SourceNode) (a : ℚ) :
    l.foldl durStep a = a ∨ ∃ s ∈ l, l.foldl durStep a = s.stopTime := by
  induction l generalizing a with
  | nil => exact Or.inl rfl
  | cons x xs ih =>
    simp only [List.foldl_cons]
    rcases ih (durStep a x) with h | ⟨s, hs, hev⟩
    · rw [h]
      unfold durStep
      split
      · exact Or.inr ⟨x, List.mem_cons_self x xs, rfl⟩
      · exact Or.inl rfl
    · exact Or.inr ⟨s, List.mem_cons_of_mem x hs, hev⟩

/-- C9: with non-negative stop times, getDuration equals the maximum stop
time over the current sources and 0 when there are none; adding a source
with a larger stop time raises the duration to that stop time; with the
sources removed the duration is 0 again. -/
theorem C9_duration_max (ctx : Ctx) (node : SourceNode)
    (hpos : ∀ s ∈ ctx.sourceNodes, 0 ≤ s.stopTime) :
    (ctx.sourceNodes = [] → duration ctx = 0) ∧
    (∀ s ∈ ctx.sourceNodes, s.stopTime ≤ duration ctx) ∧
    (ctx.sourceNodes ≠ [] →
      ∃ s ∈ ctx.sourceNodes, duration ctx = s.stopTime) ∧
    (duration ctx < node.stopTime →
      duration (createVideoSourceNode ctx node) = node.stopTime ∧
      duration ctx < duration (createVideoSourceNode ctx node)) ∧
    duration { ctx with sourceNodes := [] } = 0 := by
  refine ⟨?_, ?_, ?_, ?_, rfl⟩
  · intro h
    rw [duration_eq_foldl, h]
    rfl
  · intro s hs
    rw [duration_eq_foldl]
    exact mem_le_foldl_durStep ctx.sourceNodes 0 s hs
  · intro hne
    rcases foldl_durStep_eq_or ctx.sourceNodes 0 with h0 | hmem
    · obtain ⟨x, xs, hl⟩ := List.exists_cons_of_ne_nil hne
      have hx : x ∈ ctx.sourceNodes := by
        rw [hl]
        exact List.mem_cons_self x xs
      have h1 : x.stopTime ≤ duration ctx := by
        rw [duration_eq_foldl]
        exact mem_le_foldl_durStep _ 0 x hx
      have h2 : 0 ≤ x.stopTime := hpos x hx
      have h3 : duration ctx = 0 := by rw [duration_eq_foldl, h0]
      refine ⟨x, hx, ?_⟩
      rw [h3] at h1 ⊢
      exact le_antisymm h2 h1
    · rw [duration_eq_foldl]
      exact hmem
  · intro hlt
    have key : duration (createVideoSourceNode ctx node) = node.stopTime := by
      rw [duration_eq_foldl]
      show (ctx.sourceNodes ++ [node]).foldl durStep 0 = node.stopTime
      rw [List.foldl_append]
      show durStep (ctx.sourceNodes.foldl durStep 0) node = node.stopTime
      rw [← duration_eq_foldl]
      unfold durStep
      rw [if_pos hlt]
    exact ⟨key, by rw [key]; exact hlt⟩

/-- A context with a single source of stop time 0, instantiating C9. -/
def c9wctx : Ctx :=
  { sourceNodes := [⟨0, true⟩], processingCount := 0,
    currentTime := JSNum.val 0, state := PlayState.paused }

/-- Witness for C9 at a concrete one-source context. -/
theorem C9_witness :
    (⟨0, true⟩ : SourceNode).stopTime ≤ duration c9wctx ∧
    (duration (createVideoSourceNode c9wctx ⟨20, true⟩) =
        (⟨20, true⟩ : SourceNode).stopTime ∧
      duration c9wctx < duration (createVideoSourceNode c9wctx ⟨20, true⟩)) ∧
    duration { c9wctx with sourceNodes := [] } = 0 :=
  ⟨(C9_duration_max c9wctx ⟨20, true⟩
      (fun s hs => by rw [List.mem_singleton.mp hs])).2.1
      ⟨0, true⟩ (List.mem_cons_self _ _),
   (C9_duration_max c9wctx ⟨20, true⟩
      (fun s hs => by rw [List.mem_singleton.mp hs])).2.2.2.1
      (by simp [duration, c9wctx]),
   (C9_duration_max c9wctx ⟨20, true⟩
      (fun s hs => by rw [List.mem_singleton.mp hs])).2.2.2.2⟩

/-- The paused two-source context of the C2 scenario: stop times 10 and 20,
both sources always ready, currentTime 0. -/
def scen0 : Ctx :=
  { sourceNodes := [⟨10, true⟩, ⟨20, true⟩], processingCount := 0,
    currentTime := JSNum.val 0, state := PlayState.paused }

/-- C2: in a tick whose post-reconciliation state is playing, currentTime
advances by exactly dt and the state becomes ended that same tick exactly
when the advanced currentTime strictly exceeds the duration; concretely,
from play() on two always-ready sources with stop times 10 and 20, four
ticks of dt = 5 stay playing, the fifth (currentTime 25 > 20) ends the
context, and the duration reads 20 throughout. -/
theorem C2_playing_tick (ctx : Ctx) (dt : ℚ)
    (h : ctx.state = PlayState.playing ∨ ctx.state = PlayState.stalled)
    (hall : ∀ s ∈ ctx.sourceNodes, s.ready = true) :
    ((update ctx dt).ctx.currentTime = ctx.currentTime.add (JSNum.val dt) ∧
     (update ctx dt).ctx.state =
       (if (ctx.currentTime.add (JSNum.val dt)).gt (JSNum.val (duration ctx))
        then PlayState.ended else PlayState.playing)) ∧
    ((∀ k, 1 ≤ k → k ≤ 4 →
        (runTicks (play scen0).1 k 5).state = PlayState.playing) ∧
     (runTicks (play scen0).1 5 5).state = PlayState.ended ∧
     (runTicks (play scen0).1 5 5).currentTime = JSNum.val 25 ∧
     (∀ k, k ≤ 5 → duration (runTicks (play scen0).1 k 5) = 20)) := by
  constructor
  · have hg : ctx.state = PlayState.playing ∨ ctx.state = PlayState.stalled ∨
        ctx.state = PlayState.paused := by
      rcases h with h | h
      · exact Or.inl h
      · exact Or.inr (Or.inl h)
    have hnp : ctx.state ≠ PlayState.paused := by
      rcases h with h | h <;> simp [h]
    have hs : isStalled ctx = false := (isStalled_eq_false_iff ctx).mpr hall
    have hrec : reconciledState ctx = PlayState.playing := by
      rw [reconciledState_of_live ctx hnp, if_neg (by simp [hs])]
    have hadv : advancedTime ctx dt = ctx.currentTime.add (JSNum.val dt) := by
      rw [advancedTime, if_pos hrec]
    have hstep : steppedState ctx dt =
        (if (ctx.currentTime.add (JSNum.val dt)).gt (JSNum.val (duration ctx))
         then PlayState.ended else PlayState.playing) := by
      rw [steppedState, hrec, hadv]
      simp
    exact ⟨by rw [update_ctx_time ctx dt hg, hadv],
      by rw [update_ctx_state ctx dt hg, hstep]⟩
  · refine ⟨?_, ?_, ?_, ?_⟩
    · intro k h1 h4
      interval_cases k <;>
        norm_num [runTicks, play, scen0, update, reconciledState,
          advancedTime, steppedState, isStalled, duration, sourceCmds,
          JSNum.add, JSNum.gt]
    · norm_num [runTicks, play, scen0, update, reconciledState,
        advancedTime, steppedState, isStalled, duration, sourceCmds,
        JSNum.add, JSNum.gt]
    · norm_num [runTicks, play, scen0, update, reconciledState,
        advancedTime, steppedState, isStalled, duration, sourceCmds,
        JSNum.add, JSNum.gt]
    · intro k hk
      interval_cases k <;>
        norm_num [runTicks, play, scen0, update, reconciledState,
          advancedTime, steppedState, isStalled, duration, sourceCmds,
          JSNum.add, JSNum.gt]

/-- Witness for C2: the general part instantiated right after play() on the
scenario context, with dt = 5. -/
theorem C2_witness :
    (update (play scen0).1 5).ctx.currentTime =
      (play scen0).1.currentTime.add (JSNum.val 5) ∧
    (update (play scen0).1 5).ctx.state =
      (if ((play scen0).1.currentTime.add (JSNum.val 5)).gt
          (JSNum.val (duration (play scen0).1))
       then PlayState.ended else PlayState.playing) :=
  (C2_playing_tick (play scen0).1 5 (Or.inl rfl) (by decide)).1
